import Mathlib

/-!
Shallow embedding of `src/html.rs` of the printpdf repository: the
render-tree-to-drawing-ops translator (`xml_to_pages`,
`layout_result_to_ops`, `push_rectangles_into_displaylist`,
`displaylist_handle_rect`, `get_text_node`, `get_image_node`,
`get_background_content`, `fixup_xml`).

Modelling conventions:
* `f32` scalars (coordinates, sizes, color components) are modelled as
  exact rationals (`Rat`); the properties under study are structural and
  ordering properties together with algebraic identities on coordinates,
  none of which depend on floating-point rounding.
* External collaborator crates (the azul layout engine, serde_json, the
  image/SVG codecs, rust_fontconfig) are modelled abstractly: nodes of
  the positioned/styled tree carry their already-resolved style data
  (the CSS property-cache getters of `html.rs` only forward to azul),
  and codecs enter as opaque function parameters.
* Byte payloads are lists of naturals.
-/

namespace HtmlPdf

/-- Raw byte payload of an image or font source. -/
abbrev Bytes := List Nat

/-- The document font table `doc.resources.fonts.map`
(`BTreeMap<FontId, ParsedFont>` in the source), modelled as an
association list from the font resource name to the parsed font, the
latter represented by the font-family hash it was parsed for. -/
abbrev FontMap := List (String × Nat)

/-- `ImageTypeInfo` from `src/html.rs` (lines 247-257). -/
inductive ImageTypeInfo where
  | image
  | svg
  deriving DecidableEq

/-- `ImageInfo` from `src/html.rs` (lines 238-245): the resource
descriptor written into the markup by `fixup_xml` and recovered by
`get_image_node`. -/
structure ImageInfo where
  original_id : String
  xobject_id : String
  image_type : ImageTypeInfo
  width : Nat
  height : Nat
  deriving DecidableEq

/-- Content of the opaque tag of an image node
(`DecodedImage::NullImage { tag, .. }` in `get_image_node`).
`json info` models a tag holding the serde_json serialization of
`info`; `raw s` models any tag that is not a valid `ImageInfo`
serialization, such as a `src` reference that `fixup_xml` never
rewrote.  The serde_json round trip (serialize in `fixup_xml`,
deserialize in `get_image_node`) is external to the repository and is
modelled by these two constructors. -/
inductive ImageTag where
  | json (info : ImageInfo)
  | raw (s : String)
  deriving DecidableEq

/-- One glyph of a shaped text run (azul `GlyphInstance`): the glyph
index `gi.index` and the advance position `gi.point`. -/
structure GlyphInstance where
  index : Nat
  x : Rat
  y : Rat
  deriving DecidableEq

/-- The resolved inputs that `get_text_node` reads for a text node:
the font-families hash `sffh.0`, whether
`ParsedFont::from_bytes` succeeds on that family's bytes (the decoding
itself is external), the resolved font size, the resolved text color
(`ColorU` components, 0..255) and the shaped glyph run. -/
structure TextSource where
  familyHash : Nat
  fontParses : Bool
  fontSizePx : Rat
  colR : Nat
  colG : Nat
  colB : Nat
  glyphs : List GlyphInstance
  deriving DecidableEq

/-- An RGB color with integer components 0..255 (azul `ColorU`; the
alpha component is never read by the translator). -/
structure ColorU where
  r : Nat
  g : Nat
  b : Nat
  deriving DecidableEq

/-- A resolved border (`LayoutRectContentBorder` built by
`get_opt_border`, lines 852-941): the four edge widths (already
resolved to pixel values; `CssPropertyValue` unwrapping and
`PixelValue::to_pixels` against the box height are external azul_css
computations) and the four edge colors.  The styles field of the
source struct is stored but never read by any emission path and is
omitted. -/
structure BorderInfo where
  widthTopPx : Rat
  widthRightPx : Rat
  widthBottomPx : Rat
  widthLeftPx : Rat
  colorTop : ColorU
  colorRight : ColorU
  colorBottom : ColorU
  colorLeft : ColorU
  deriving DecidableEq

/-- A declared CSS background layer (`azul_css::StyleBackgroundContent`).
Gradient payloads are irrelevant to every emission path (only the
`Color` case emits operations) and are dropped. -/
inductive StyleBackgroundContent where
  | linearGradient
  | radialGradient
  | conicGradient
  | image
  | color (r g b : Nat)
  deriving DecidableEq

/-- `azul_core::display_list::RectBackground`, restricted to the
variants `get_background_content` can produce. -/
inductive RectBackground where
  | linearGradient
  | radialGradient
  | conicGradient
  | color (r g b : Nat)
  deriving DecidableEq

/-- The kind of a node as `displaylist_handle_rect` distinguishes it:
generic container, image node (carrying the opaque tag read by
`get_image_node`), or text node.  For a text node, `resolved = none`
models any failure of the `Option` chain in `get_text_node` before the
font-table step (missing font family, font key, registered font, words
cache, shaped-words cache, positioned-words cache or text-layout
options); `resolved = some t` models a node for which all of those
lookups succeed with data `t`. -/
inductive NodeKind where
  | generic
  | image (tag : ImageTag)
  | text (resolved : Option TextSource)
  deriving DecidableEq

/-- The per-node data `displaylist_handle_rect` consumes for one
`NodeId`: the result of `is_display_none`, the positioned rectangle
(`positioned_rect.position.get_static_offset()` origin and
`positioned_rect.size`), the declared background layers (the
`background_content` CSS property, `None` when the property is absent),
the resolved border (`None` when `has_border` is false), and the node
kind.  The `get_approximate_static_bounds` call used for the text
anchor is external to the repository; per the spec the text-run anchor
is the node's box origin, so it is modelled by the same origin. -/
structure NodeCore where
  displayNone : Bool
  x : Rat
  y : Rat
  width : Rat
  height : Rat
  backgroundDecl : Option (List StyleBackgroundContent)
  border : Option BorderInfo
  kind : NodeKind
  deriving DecidableEq

/-- A node of the rendering-order tree
(`ContentGroup { root, children }`). -/
inductive PdfNode where
  | node (core : NodeCore) (children : List PdfNode)

/-- The drawing operations (`Op` variants) emitted by
`displaylist_handle_rect`.  `UseXObject` carries the translation and
the independent x/y scale of the `XObjectTransform` (its `rotate` and
`dpi` fields are always `None` here and are dropped);
`SetTextRenderingModeFill` is `SetTextRenderingMode { mode: Fill }`;
`WriteCodepoints` carries the font resource id, the size and the glyph
indices (the paired space character of the source tuple is constant
and dropped); `DrawPolygon` and `DrawLine` carry the rectangle handed
to `Rect::to_polygon` / `Rect::to_line` (the polygon/line construction
itself lives outside `src/`). -/
inductive Op where
  | SetFillColor (r g b : Rat)
  | DrawPolygon (x y w h : Rat)
  | SetOutlineThickness (t : Rat)
  | SetOutlineColor (r g b : Rat)
  | DrawLine (x y w h : Rat)
  | UseXObject (id : String) (tx ty sx sy : Rat)
  | StartTextSection
  | SetTextRenderingModeFill
  | SetWordSpacing (percent : Rat)
  | SetLineHeight (lh : Rat)
  | SetTextCursor (x y : Rat)
  | SetTextMatrix (tx ty : Rat)
  | WriteCodepoints (font : String) (size : Rat) (cp : List Nat)
  | EndTextSection
  | SaveGraphicsState
  | RestoreGraphicsState
  deriving DecidableEq

/-- `tiny_skia_path::Scalar::is_nearly_zero` (external crate):
true when the absolute value is at most `1 / 4096`. -/
def isNearlyZero (x : Rat) : Bool := |x| ≤ (1 : Rat) / 4096

/-- Zero-pad a decimal string on the left to the given width
(the behaviour of the Rust format specifier of that width). -/
def padZeroTo (w : Nat) (s : String) : String :=
  ⟨List.replicate (w - s.length) '0' ++ s.data⟩

/-- The font resource name `get_text_node` derives from the
font-families hash: the Rust format string
`azul_font_family_` followed by the hash zero-padded to 32 digits
(line 841 of `src/html.rs`). -/
def fontIdOf (h : Nat) : String :=
  "azul_font_family_" ++ padZeroTo 32 (toString h)

/-- `get_background_content` (lines 701-774): reads the declared
background layers and keeps, per layer, the realizable content:
gradients pass through, image-backed backgrounds are dropped
(`Image(_) => None`), colors pass through.  The size/position/repeat
modifiers paired with each layer in the source are stored but never
read by any emission path and are omitted. -/
def get_background_content (decl : Option (List StyleBackgroundContent)) :
    List RectBackground :=
  match decl with
  | none => []
  | some bgs =>
    bgs.flatMap fun bg =>
      match bg with
      | .linearGradient => [RectBackground.linearGradient]
      | .radialGradient => [RectBackground.radialGradient]
      | .conicGradient => [RectBackground.conicGradient]
      | .image => []
      | .color r g b => [RectBackground.color r g b]

/-- `get_image_node` (lines 776-789): an image node whose
`DecodedImage::NullImage` tag deserializes as an `ImageInfo` yields
that descriptor; every other node yields `None`. -/
def get_image_node : NodeKind → Option ImageInfo
  | .image (.json info) => some info
  | .image (.raw _) => none
  | _ => none

/-- The tuple `get_text_node` returns on success
(`(InlineText, FontId, StyleTextColor, u16)`; the inline text, color
and size are bundled in `text`, the trailing `u16` is the constant 0
and is dropped). -/
structure TextResult where
  text : TextSource
  fontId : String
  deriving DecidableEq

/-- `get_text_node` (lines 791-850): for a text node whose resolution
chain succeeds, derive the font resource name from the family hash;
if the document font table does not contain that name, parse the font
bytes (failure aborts with `None`, leaving the table unchanged) and
insert the parsed font under that name; return the resolved text data
together with the font resource name.  The font table is threaded
explicitly (it is reached through `&mut doc.resources` in the
source). -/
def get_text_node : NodeKind → FontMap → Option TextResult × FontMap
  | .text (some t), fonts =>
    let id := fontIdOf t.familyHash
    if (fonts.lookup id).isSome then
      (some ⟨t, id⟩, fonts)
    else if t.fontParses then
      (some ⟨t, id⟩, (id, t.familyHash) :: fonts)
    else
      (none, fonts)
  | .text none, fonts => (none, fonts)
  | _, fonts => (none, fonts)

/-- `displaylist_handle_rect` (lines 397-609): the per-node emission.
Returns `none` (and nothing emitted, font table untouched) for a
`display:none` node; otherwise returns the node's operation block:
image placement first, then the text section, then — if any
background-fill or border operation was buffered in `newops` — a
save-state / restore-state bracket around those buffered operations.
The buffered `newops` are built in source order (background layers,
then the border), using the top edge's width and color for the border
stroke.  The `println!` of the source is a diagnostic side effect and
has no counterpart. -/
def displaylist_handle_rect (H : Rat) (n : NodeCore) (fonts : FontMap) :
    Option (List Op) × FontMap :=
  if n.displayNone then (none, fonts)
  else
    let background_content := get_background_content n.backgroundDecl
    let opt_border := n.border
    let opt_image := get_image_node n.kind
    let tr := get_text_node n.kind fonts
    let opt_text := tr.1
    let fonts1 := tr.2
    let bgOps : List Op :=
      background_content.flatMap fun b =>
        match b with
        | .color cr cg cb =>
          [Op.SetFillColor ((cr : Rat) / 255) ((cg : Rat) / 255) ((cb : Rat) / 255),
           Op.DrawPolygon n.x (H - n.y) n.width n.height]
        | _ => []
    let borderOps : List Op :=
      match opt_border with
      | none => []
      | some bd =>
        [Op.SetOutlineThickness bd.widthTopPx,
         Op.SetOutlineColor ((bd.colorTop.r : Rat) / 255) ((bd.colorTop.g : Rat) / 255)
           ((bd.colorTop.b : Rat) / 255),
         Op.DrawLine n.x (H - n.y) n.width n.height]
    let newops := bgOps ++ borderOps
    let imageOps : List Op :=
      match opt_image with
      | none => []
      | some info =>
        let source_width := info.width
        let source_height := info.width
        let is_zero := isNearlyZero n.width || isNearlyZero n.height ||
          source_height == 0 || source_width == 0
        if is_zero then []
        else
          [Op.UseXObject info.xobject_id n.x (H - n.y)
            (n.width / (source_width : Rat)) (n.height / (source_height : Rat))]
    let textOps : List Op :=
      match opt_text with
      | none => []
      | some res =>
        [Op.StartTextSection,
         Op.SetFillColor ((res.text.colR : Rat) / 255) ((res.text.colG : Rat) / 255)
           ((res.text.colB : Rat) / 255),
         Op.SetTextRenderingModeFill,
         Op.SetWordSpacing 100,
         Op.SetLineHeight res.text.fontSizePx]
        ++ (res.text.glyphs.flatMap fun gi =>
             [Op.SetTextCursor 0 0,
              Op.SetTextMatrix (n.x + gi.x * 2) (H - n.y - gi.y),
              Op.WriteCodepoints res.fontId (res.text.fontSizePx * 2) [gi.index % 65536]])
        ++ [Op.EndTextSection]
    let bracket : List Op :=
      if newops.isEmpty then []
      else Op.SaveGraphicsState :: (newops ++ [Op.RestoreGraphicsState])
    (some (imageOps ++ textOps ++ bracket), fonts1)

mutual

/-- `push_rectangles_into_displaylist` (lines 366-395): emit the
group's root node; a `None` from `displaylist_handle_rect`
(`display:none`) propagates through `?`, skipping the whole subtree
with nothing emitted; otherwise recurse into the children in order
(their own failures are ignored by the source loop). -/
def push_rects (H : Rat) : PdfNode → FontMap → List Op × FontMap
  | .node core cs, fonts =>
    match displaylist_handle_rect H core fonts with
    | (none, fonts1) => ([], fonts1)
    | (some selfOps, fonts1) =>
      let rest := push_forest H cs fonts1
      (selfOps ++ rest.1, rest.2)

/-- The child loop of `push_rectangles_into_displaylist`, emitting a
list of content groups in order. -/
def push_forest (H : Rat) : List PdfNode → FontMap → List Op × FontMap
  | [], fonts => ([], fonts)
  | c :: cs, fonts =>
    let first := push_rects H c fonts
    let rest := push_forest H cs first.2
    (first.1 ++ rest.1, rest.2)

end

/-- `layout_result_to_ops` (lines 331-364): emit the root node of the
rendering-order tree, discarding the result (`let _ = ...`), then emit
every child group unconditionally. -/
def layout_result_to_ops (H : Rat) (root : PdfNode) (fonts : FontMap) :
    List Op × FontMap :=
  match root with
  | .node core cs =>
    let r := displaylist_handle_rect H core fonts
    let selfOps := r.1.getD []
    let rest := push_forest H cs r.2
    (selfOps ++ rest.1, rest.2)

/-- Result of `crate::Svg::parse` on a byte payload (external codec,
passed in as a function): on success, the declared intrinsic width and
height, each possibly absent. -/
inductive SvgParse where
  | ok (w : Option Nat) (h : Option Nat)
  | fail

/-- Result of `crate::image::RawImage::decode_from_bytes` (external
codec, passed in as a function): on success, the decoded pixel
dimensions. -/
inductive RasterParse where
  | ok (w : Nat) (h : Nat)
  | fail

/-- The image-ingestion loop of `fixup_xml` (lines 273-321): for every
declared image source in order, try the vector codec first, then the
raster codec; a source failing both is skipped entirely (the source
`continue`).  On success the asset is registered on the document
(`doc.add_xobject` / `doc.add_image`; the id allocation lives outside
`src/` and is modelled from the spec as a deterministic id derived
from the number of already-registered xobjects) and the mapping from
the original source name to its `ImageInfo` is recorded — the
association list returned as second component models the
`src='{json}'` rewrites performed on the markup string. -/
def fixup_images (svgP : Bytes → SvgParse) (rasterP : Bytes → RasterParse) :
    List (String × Bytes) → List String → List String × List (String × ImageInfo)
  | [], doc => (doc, [])
  | (k, bytes) :: rest, doc =>
    match svgP bytes with
    | .ok w h =>
      let id := "xobj" ++ toString doc.length
      let info : ImageInfo := ⟨k, id, .svg, w.getD 0, h.getD 0⟩
      let r := fixup_images svgP rasterP rest (doc ++ [id])
      (r.1, (k, info) :: r.2)
    | .fail =>
      match rasterP bytes with
      | .ok w h =>
        let id := "xobj" ++ toString doc.length
        let info : ImageInfo := ⟨k, id, .image, w, h⟩
        let r := fixup_images svgP rasterP rest (doc ++ [id])
        (r.1, (k, info) :: r.2)
      | .fail => fixup_images svgP rasterP rest doc

/-- Modelled from the spec: the opaque tag under which a `src`
reference to logical name `k` reaches `get_image_node` after the
`fixup_xml` rewrite and the round trip through the external layout
engine — the serialized `ImageInfo` when `fixup_xml` rewrote the
reference, the original reference text otherwise. -/
def tagForSrc (m : List (String × ImageInfo)) (k : String) : ImageTag :=
  match m.lookup k with
  | some info => ImageTag.json info
  | none => ImageTag.raw k

/-- Modelled from the spec: `Mm::into_pt` (72 points per 25.4
millimetres; the conversion lives outside `src/`). -/
def mmToPt (mm : Rat) : Rat := mm * 360 / 127

/-- `XmlRenderOptions` (lines 39-58): the images and fonts are
`BTreeMap`s iterated in key order; they are modelled as association
lists sorted by the caller.  Page dimensions are millimetres. -/
structure XmlRenderOptions where
  images : List (String × Bytes)
  fonts : List (String × Bytes)
  page_width : Rat
  page_height : Rat

/-- A produced page: `PdfPage::new(width, height, ops)`. -/
structure PdfPage where
  width : Rat
  height : Rat
  ops : List Op

/-- `xml_to_pages` (lines 60-197).  The external pipeline between the
rewritten markup and the positioned/styled rendering-order tree
(`parse_xml_string`, `str_to_dom`, resource scanning, font cache
construction and `solve_layout`, all external azul machinery) is
abstracted as the function `parseDom` of the original markup, the
rewrite map produced by ingestion and the configured fonts; its `none`
result covers the two `Err` exits of the source (XML parsing and DOM
construction).  On success, one single page carrying the whole
operation stream is returned. -/
def xml_to_pages (svgP : Bytes → SvgParse) (rasterP : Bytes → RasterParse)
    (parseDom : String → List (String × ImageInfo) → List (String × Bytes) → Option PdfNode)
    (file_contents : String) (config : XmlRenderOptions) :
    Except String (List PdfPage) :=
  match parseDom file_contents (fixup_images svgP rasterP config.images []).2 config.fonts with
  | none => Except.error "Error parsing XML"
  | some root =>
    Except.ok [⟨config.page_width, config.page_height,
      (layout_result_to_ops (mmToPt config.page_height) root []).1⟩]

/-- The background-fill block of a node: per color layer, a set-fill
instruction followed by a filled rectangle at the flipped origin
(lines 431-452). -/
def bgOpsOf (H : Rat) (n : NodeCore) : List Op :=
  (get_background_content n.backgroundDecl).flatMap fun b =>
    match b with
    | .color cr cg cb =>
      [Op.SetFillColor ((cr : Rat) / 255) ((cg : Rat) / 255) ((cb : Rat) / 255),
       Op.DrawPolygon n.x (H - n.y) n.width n.height]
    | _ => []

/-- The border block of a node: thickness, color and outline using the
top edge's resolved width and color (lines 454-527). -/
def borderOpsOf (H : Rat) (n : NodeCore) : List Op :=
  match n.border with
  | none => []
  | some bd =>
    [Op.SetOutlineThickness bd.widthTopPx,
     Op.SetOutlineColor ((bd.colorTop.r : Rat) / 255) ((bd.colorTop.g : Rat) / 255)
       ((bd.colorTop.b : Rat) / 255),
     Op.DrawLine n.x (H - n.y) n.width n.height]

/-- The image-placement block of a node (lines 529-554). -/
def imageOpsOf (H : Rat) (n : NodeCore) : List Op :=
  match get_image_node n.kind with
  | none => []
  | some info =>
    let source_width := info.width
    let source_height := info.width
    let is_zero := isNearlyZero n.width || isNearlyZero n.height ||
      source_height == 0 || source_width == 0
    if is_zero then []
    else
      [Op.UseXObject info.xobject_id n.x (H - n.y)
        (n.width / (source_width : Rat)) (n.height / (source_height : Rat))]

/-- The text-section block of a node for a resolved text result
(lines 556-599). -/
def textOpsOf (H : Rat) (n : NodeCore) (res : TextResult) : List Op :=
  [Op.StartTextSection,
   Op.SetFillColor ((res.text.colR : Rat) / 255) ((res.text.colG : Rat) / 255)
     ((res.text.colB : Rat) / 255),
   Op.SetTextRenderingModeFill,
   Op.SetWordSpacing 100,
   Op.SetLineHeight res.text.fontSizePx]
  ++ (res.text.glyphs.flatMap fun gi =>
       [Op.SetTextCursor 0 0,
        Op.SetTextMatrix (n.x + gi.x * 2) (H - n.y - gi.y),
        Op.WriteCodepoints res.fontId (res.text.fontSizePx * 2) [gi.index % 65536]])
  ++ [Op.EndTextSection]

/-- The text block given the optional result of `get_text_node`. -/
def textOpsRendered (H : Rat) (n : NodeCore) : Option TextResult → List Op
  | none => []
  | some res => textOpsOf H n res

/-- The save-state / restore-state bracket around the buffered
background and border instructions (lines 601-606): empty when nothing
was buffered. -/
def bracketOf (newops : List Op) : List Op :=
  if newops.isEmpty then []
  else Op.SaveGraphicsState :: (newops ++ [Op.RestoreGraphicsState])

/-- The glyph run of a node: nonempty only for a text node whose
resolution chain succeeds. -/
def glyphsOf (n : NodeCore) : List GlyphInstance :=
  match n.kind with
  | .text (some t) => t.glyphs
  | _ => []

/-- How many entries of the font table use the given resource name. -/
def countKey (m : FontMap) (k : String) : Nat :=
  (m.filter fun p => p.1 == k).length

/-- A childless visible text node, all geometry zero: the smallest
tree node exercising `get_text_node`. -/
def mkTextLeaf (t : TextSource) : PdfNode :=
  .node ⟨false, 0, 0, 0, 0, none, none, .text (some t)⟩ []

/-- The coordinate contract of the claims: every placing instruction a
node emits uses the node's horizontal origin unchanged and the
vertical origin flipped around the page height; a text transform adds
the doubled glyph advance horizontally and subtracts the glyph advance
vertically from the flipped origin. -/
def placementOk (H : Rat) (n : NodeCore) : Op → Prop
  | .DrawPolygon a b w h => a = n.x ∧ b = H - n.y ∧ w = n.width ∧ h = n.height
  | .DrawLine a b w h => a = n.x ∧ b = H - n.y ∧ w = n.width ∧ h = n.height
  | .UseXObject _ tx ty _ _ => tx = n.x ∧ ty = H - n.y
  | .SetTextMatrix tx ty =>
      ∃ gi ∈ glyphsOf n, tx = n.x + gi.x * 2 ∧ ty = (H - n.y) - gi.y
  | _ => True

/-- The text-scaling facts of claim C6: glyph-draw instructions carry
twice the resolved font size while the line height carries it
unscaled. -/
def textScaleOk (n : NodeCore) : Op → Prop
  | .WriteCodepoints fid s _ =>
      ∃ t, n.kind = NodeKind.text (some t) ∧ s = t.fontSizePx * 2 ∧ fid = fontIdOf t.familyHash
  | .SetLineHeight lh => ∃ t, n.kind = NodeKind.text (some t) ∧ lh = t.fontSizePx
  | _ => True

/-- Recognizes a filled-rectangle instruction. -/
def isDrawPolygonOp : Op → Bool
  | .DrawPolygon _ _ _ _ => true
  | _ => false

/-- Recognizes the opening of a text section. -/
def isStartTextOp : Op → Bool
  | .StartTextSection => true
  | _ => false

/-- Recognizes an image-placement instruction. -/
def isUseXObjectOp : Op → Bool
  | .UseXObject _ _ _ _ _ => true
  | _ => false

/-! ### Concrete sample inputs used for counterexamples and witnesses -/

/-- A single shaped glyph: index 7, advance position `(1, 0)`. -/
def sampleGlyph : GlyphInstance := ⟨7, 1, 0⟩

/-- A resolved text run: family hash 3, decodable font, 12px, blue,
one glyph. -/
def sampleText : TextSource := ⟨3, true, 12, 0, 0, 255, [sampleGlyph]⟩

/-- A visible generic node at layout origin `(10, 10)`, size
`50 × 20`, with one solid red background layer. -/
def sampleBg : NodeCore := ⟨false, 10, 10, 50, 20, some [.color 255 0 0], none, .generic⟩

/-- A visible text node at the layout origin with one solid red
background layer and the sample text run. -/
def sampleTextNode : NodeCore :=
  ⟨false, 0, 0, 100, 30, some [.color 255 0 0], none, .text (some sampleText)⟩

/-- An image descriptor with intrinsic size `2 × 3`. -/
def sampleImageInfo : ImageInfo := ⟨"img", "xobj0", .image, 2, 3⟩

/-- A visible `10 × 10` image node carrying `sampleImageInfo`. -/
def sampleImageNode : NodeCore :=
  ⟨false, 0, 0, 10, 10, none, none, .image (.json sampleImageInfo)⟩

/-- An image descriptor with intrinsic width 2 and intrinsic
height 0. -/
def sampleImageInfoZeroH : ImageInfo := ⟨"img", "xobj0", .image, 2, 0⟩

/-- A visible `10 × 10` image node whose resource has intrinsic
height 0. -/
def sampleImageZeroH : NodeCore :=
  ⟨false, 0, 0, 10, 10, none, none, .image (.json sampleImageInfoZeroH)⟩

/-- A `display:none` container node. -/
def hiddenRoot : NodeCore := ⟨true, 0, 0, 100, 100, none, none, .generic⟩

/-- A tree whose root is `display:none` but has a visible child with
a red background. -/
def sampleTree : PdfNode := .node hiddenRoot [.node sampleBg []]

/-- A childless hidden root: the smallest rendering-order tree. -/
def trivialRoot : PdfNode := .node hiddenRoot []

/-- A byte payload no codec accepts in the sample scenarios below. -/
def badBytes : Bytes := [255, 0]

/-- A vector codec rejecting every payload. -/
def failSvg : Bytes → SvgParse := fun _ => SvgParse.fail

/-- A raster codec rejecting every payload. -/
def failRaster : Bytes → RasterParse := fun _ => RasterParse.fail

/-- A render configuration declaring one undecodable image source on a
default 210 × 297 page. -/
def sampleConfig : XmlRenderOptions := ⟨[("bad", badBytes)], [], 210, 297⟩

/-! ### Helper lemmas -/

theorem displaylist_decomp (H : Rat) (n : NodeCore) (fonts : FontMap)
    (h : n.displayNone = false) :
    displaylist_handle_rect H n fonts =
      (some (imageOpsOf H n ++
             textOpsRendered H n (get_text_node n.kind fonts).1 ++
             bracketOf (bgOpsOf H n ++ borderOpsOf H n)),
       (get_text_node n.kind fonts).2) := by
  cases ht : (get_text_node n.kind fonts).1 <;>
    simp only [displaylist_handle_rect, h, Bool.false_eq_true, if_false, ht,
      imageOpsOf, textOpsRendered, textOpsOf, bracketOf, bgOpsOf, borderOpsOf]

theorem get_text_node_not_text (k : NodeKind) (fonts : FontMap)
    (h : ∀ t, k ≠ NodeKind.text (some t)) :
    get_text_node k fonts = (none, fonts) := by
  cases k with
  | generic => rfl
  | image tag => rfl
  | text r =>
    cases r with
    | none => rfl
    | some t => exact absurd rfl (h t)

theorem get_text_node_hit (t : TextSource) (fonts : FontMap)
    (h : (fonts.lookup (fontIdOf t.familyHash)).isSome) :
    get_text_node (NodeKind.text (some t)) fonts =
      (some ⟨t, fontIdOf t.familyHash⟩, fonts) := by
  simp only [get_text_node, h, if_true]

theorem get_text_node_insert (t : TextSource) (fonts : FontMap)
    (h : fonts.lookup (fontIdOf t.familyHash) = none)
    (hp : t.fontParses = true) :
    get_text_node (NodeKind.text (some t)) fonts =
      (some ⟨t, fontIdOf t.familyHash⟩,
       (fontIdOf t.familyHash, t.familyHash) :: fonts) := by
  simp only [get_text_node, h, Option.isSome_none, Bool.false_eq_true, if_false, hp, if_true]

theorem get_text_node_noparse (t : TextSource) (fonts : FontMap)
    (h : fonts.lookup (fontIdOf t.familyHash) = none)
    (hp : t.fontParses = false) :
    get_text_node (NodeKind.text (some t)) fonts = (none, fonts) := by
  simp only [get_text_node, h, Option.isSome_none, Bool.false_eq_true, if_false, hp]

theorem get_text_node_some_shape (k : NodeKind) (fonts : FontMap) (res : TextResult)
    (h : (get_text_node k fonts).1 = some res) :
    k = NodeKind.text (some res.text) ∧ res.fontId = fontIdOf res.text.familyHash := by
  cases k with
  | generic => simp [get_text_node] at h
  | image tag => simp [get_text_node] at h
  | text r =>
    cases r with
    | none => simp [get_text_node] at h
    | some t =>
      by_cases hl : (fonts.lookup (fontIdOf t.familyHash)).isSome
      · rw [get_text_node_hit t fonts hl] at h
        cases h; exact ⟨rfl, rfl⟩
      · rw [Option.not_isSome_iff_eq_none] at hl
        cases hp : t.fontParses
        · rw [get_text_node_noparse t fonts hl hp] at h; cases h
        · rw [get_text_node_insert t fonts hl hp] at h
          cases h; exact ⟨rfl, rfl⟩

theorem placement_bgOpsOf (H : Rat) (n : NodeCore) :
    ∀ op ∈ bgOpsOf H n, placementOk H n op := by
  intro op hop
  simp only [bgOpsOf, List.mem_flatMap] at hop
  obtain ⟨b, -, hop⟩ := hop
  cases b <;> simp_all <;> rcases hop with rfl | rfl <;> simp [placementOk]

theorem placement_borderOpsOf (H : Rat) (n : NodeCore) :
    ∀ op ∈ borderOpsOf H n, placementOk H n op := by
  intro op hop
  unfold borderOpsOf at hop
  cases hb : n.border with
  | none => simp [hb] at hop
  | some bd =>
    rw [hb] at hop
    simp only [List.mem_cons, List.not_mem_nil, or_false] at hop
    rcases hop with rfl | rfl | rfl
    · trivial
    · trivial
    · simp [placementOk]

theorem placement_imageOpsOf (H : Rat) (n : NodeCore) :
    ∀ op ∈ imageOpsOf H n, placementOk H n op := by
  intro op hop
  unfold imageOpsOf at hop
  cases hi : get_image_node n.kind with
  | none => simp [hi] at hop
  | some info =>
    rw [hi] at hop
    by_cases hz : (isNearlyZero n.width || isNearlyZero n.height ||
        info.width == 0 || info.width == 0) = true
    · simp [hz] at hop
    · simp only [Bool.not_eq_true] at hz
      simp only [hz, Bool.false_eq_true, if_false, List.mem_singleton] at hop
      subst hop; simp [placementOk]

theorem placement_textOpsOf (H : Rat) (n : NodeCore) (t : TextSource) (res : TextResult)
    (hk : n.kind = NodeKind.text (some t)) (hres : res.text = t) :
    ∀ op ∈ textOpsOf H n res, placementOk H n op := by
  intro op hop
  simp only [textOpsOf, List.mem_append, List.mem_cons, List.mem_singleton,
    List.mem_flatMap, List.not_mem_nil, or_false] at hop
  rcases hop with ((rfl | rfl | rfl | rfl | rfl) | ⟨gi, hgi, rfl | rfl | rfl⟩) | rfl
  · trivial
  · trivial
  · trivial
  · trivial
  · trivial
  · trivial
  · refine ⟨gi, ?_, rfl, ?_⟩
    · simp [glyphsOf, hk, hres ▸ hgi]
    · ring
  · trivial
  · trivial

theorem placement_bracketOf (H : Rat) (n : NodeCore) (l : List Op)
    (hl : ∀ op ∈ l, placementOk H n op) :
    ∀ op ∈ bracketOf l, placementOk H n op := by
  intro op hop
  unfold bracketOf at hop
  by_cases he : l.isEmpty
  · simp [he] at hop
  · simp only [he, Bool.false_eq_true, if_false, List.mem_cons, List.mem_append,
      List.mem_singleton, List.not_mem_nil, or_false] at hop
    rcases hop with rfl | h | rfl
    · trivial
    · exact hl op h
    · trivial

theorem scale_textOpsOf (H : Rat) (n : NodeCore) (t : TextSource) (res : TextResult)
    (hk : n.kind = NodeKind.text (some t)) (hres : res.text = t)
    (hid : res.fontId = fontIdOf t.familyHash) :
    ∀ op ∈ textOpsOf H n res, textScaleOk n op := by
  intro op hop
  simp only [textOpsOf, List.mem_append, List.mem_cons, List.mem_singleton,
    List.mem_flatMap, List.not_mem_nil, or_false] at hop
  rcases hop with ((rfl | rfl | rfl | rfl | rfl) | ⟨gi, hgi, rfl | rfl | rfl⟩) | rfl
  · trivial
  · trivial
  · trivial
  · trivial
  · exact ⟨t, hk, by rw [hres]⟩
  · trivial
  · trivial
  · exact ⟨t, hk, by rw [hres], by rw [hid]⟩
  · trivial

theorem no_save_imageOps (H : Rat) (n : NodeCore) :
    Op.SaveGraphicsState ∉ imageOpsOf H n ∧ Op.RestoreGraphicsState ∉ imageOpsOf H n := by
  constructor <;>
  · intro hop
    unfold imageOpsOf at hop
    cases hi : get_image_node n.kind with
    | none => simp [hi] at hop
    | some info =>
      rw [hi] at hop
      by_cases hz : (isNearlyZero n.width || isNearlyZero n.height ||
          info.width == 0 || info.width == 0) = true
      · simp [hz] at hop
      · simp only [Bool.not_eq_true] at hz
        simp [hz] at hop

theorem no_save_textOpsRendered (H : Rat) (n : NodeCore) (r : Option TextResult) :
    Op.SaveGraphicsState ∉ textOpsRendered H n r ∧
    Op.RestoreGraphicsState ∉ textOpsRendered H n r := by
  cases r with
  | none => simp [textOpsRendered]
  | some res =>
    constructor <;>
    · intro hop
      simp only [textOpsRendered, textOpsOf, List.mem_append, List.mem_cons,
        List.mem_singleton, List.mem_flatMap, List.not_mem_nil, or_false] at hop
      rcases hop with ((h | h | h | h | h) | ⟨gi, -, h | h | h⟩) | h <;> simp_all

theorem no_usexobject_textOpsRendered (H : Rat) (n : NodeCore) (r : Option TextResult) :
    ∀ op ∈ textOpsRendered H n r, isUseXObjectOp op = false := by
  intro op hop
  cases r with
  | none => simp [textOpsRendered] at hop
  | some res =>
    simp only [textOpsRendered, textOpsOf, List.mem_append, List.mem_cons,
      List.mem_singleton, List.mem_flatMap, List.not_mem_nil, or_false] at hop
    rcases hop with ((rfl | rfl | rfl | rfl | rfl) | ⟨gi, -, rfl | rfl | rfl⟩) | rfl <;> rfl

theorem no_usexobject_bgOpsOf (H : Rat) (n : NodeCore) :
    ∀ op ∈ bgOpsOf H n, isUseXObjectOp op = false := by
  intro op hop
  simp only [bgOpsOf, List.mem_flatMap] at hop
  obtain ⟨b, -, hop⟩ := hop
  cases b <;> simp_all <;> rcases hop with rfl | rfl <;> rfl

theorem no_usexobject_borderOpsOf (H : Rat) (n : NodeCore) :
    ∀ op ∈ borderOpsOf H n, isUseXObjectOp op = false := by
  intro op hop
  unfold borderOpsOf at hop
  cases hb : n.border with
  | none => simp [hb] at hop
  | some bd =>
    rw [hb] at hop
    simp only [List.mem_cons, List.not_mem_nil, or_false] at hop
    rcases hop with rfl | rfl | rfl <;> rfl

theorem no_usexobject_bracketOf (H : Rat) (n : NodeCore) (l : List Op)
    (hl : ∀ op ∈ l, isUseXObjectOp op = false) :
    ∀ op ∈ bracketOf l, isUseXObjectOp op = false := by
  intro op hop
  unfold bracketOf at hop
  by_cases he : l.isEmpty
  · simp [he] at hop
  · simp only [he, Bool.false_eq_true, if_false, List.mem_cons, List.mem_append,
      List.mem_singleton, List.not_mem_nil, or_false] at hop
    rcases hop with rfl | h | rfl
    · rfl
    · exact hl op h
    · rfl

theorem scale_bgOpsOf (H : Rat) (n : NodeCore) :
    ∀ op ∈ bgOpsOf H n, textScaleOk n op := by
  intro op hop
  simp only [bgOpsOf, List.mem_flatMap] at hop
  obtain ⟨b, -, hop⟩ := hop
  cases b <;> simp_all <;> rcases hop with rfl | rfl <;> trivial

theorem scale_borderOpsOf (H : Rat) (n : NodeCore) :
    ∀ op ∈ borderOpsOf H n, textScaleOk n op := by
  intro op hop
  unfold borderOpsOf at hop
  cases hb : n.border with
  | none => simp [hb] at hop
  | some bd =>
    rw [hb] at hop
    simp only [List.mem_cons, List.not_mem_nil, or_false] at hop
    rcases hop with rfl | rfl | rfl <;> trivial

theorem scale_imageOpsOf (H : Rat) (n : NodeCore) :
    ∀ op ∈ imageOpsOf H n, textScaleOk n op := by
  intro op hop
  unfold imageOpsOf at hop
  cases hi : get_image_node n.kind with
  | none => simp [hi] at hop
  | some info =>
    rw [hi] at hop
    by_cases hz : (isNearlyZero n.width || isNearlyZero n.height ||
        info.width == 0 || info.width == 0) = true
    · simp [hz] at hop
    · simp only [Bool.not_eq_true] at hz
      simp only [hz, Bool.false_eq_true, if_false, List.mem_singleton] at hop
      subst hop; trivial

theorem scale_bracketOf (n : NodeCore) (l : List Op)
    (hl : ∀ op ∈ l, textScaleOk n op) :
    ∀ op ∈ bracketOf l, textScaleOk n op := by
  intro op hop
  unfold bracketOf at hop
  by_cases he : l.isEmpty
  · simp [he] at hop
  · simp only [he, Bool.false_eq_true, if_false, List.mem_cons, List.mem_append,
      List.mem_singleton, List.not_mem_nil, or_false] at hop
    rcases hop with rfl | h | rfl
    · trivial
    · exact hl op h
    · trivial

theorem push_rects_hidden (H : Rat) (core : NodeCore) (cs : List PdfNode) (fonts : FontMap)
    (h : core.displayNone = true) :
    push_rects H (.node core cs) fonts = ([], fonts) := by
  simp only [push_rects, displaylist_handle_rect, h, if_true]

theorem push_rects_visible (H : Rat) (core : NodeCore) (cs : List PdfNode) (fonts : FontMap)
    (h : core.displayNone = false) :
    push_rects H (.node core cs) fonts =
      (((displaylist_handle_rect H core fonts).1.getD []) ++
        (push_forest H cs (displaylist_handle_rect H core fonts).2).1,
       (push_forest H cs (displaylist_handle_rect H core fonts).2).2) := by
  simp only [push_rects]
  rw [displaylist_decomp H core fonts h]
  simp [displaylist_decomp H core fonts h]

theorem push_forest_nil (H : Rat) (fonts : FontMap) :
    push_forest H [] fonts = ([], fonts) := by
  simp [push_forest]

theorem push_forest_cons (H : Rat) (c : PdfNode) (cs : List PdfNode) (fonts : FontMap) :
    push_forest H (c :: cs) fonts =
      ((push_rects H c fonts).1 ++ (push_forest H cs (push_rects H c fonts).2).1,
       (push_forest H cs (push_rects H c fonts).2).2) := by
  simp [push_forest]

theorem push_rects_textleaf_map (H : Rat) (t : TextSource) (fonts : FontMap) :
    (push_rects H (mkTextLeaf t) fonts).2 =
      (get_text_node (NodeKind.text (some t)) fonts).2 := by
  simp only [mkTextLeaf, push_rects]
  rw [displaylist_decomp _ _ _ rfl]
  simp [push_forest]

theorem countKey_eq_zero (m : FontMap) (k : String) (h : m.lookup k = none) :
    countKey m k = 0 := by
  induction m with
  | nil => rfl
  | cons p rest ih =>
    obtain ⟨k', v⟩ := p
    by_cases hk : k = k'
    · subst hk
      simp [List.lookup] at h
    · rw [show ((k', v) :: rest).lookup k = rest.lookup k by
        simp [List.lookup, beq_eq_false_iff_ne.mpr hk]] at h
      have hne : ¬ (k' == k) = true := by
        simp only [beq_iff_eq]; exact fun hc => hk hc.symm
      simp only [countKey, List.filter_cons, hne, Bool.false_eq_true, if_false]
      exact ih h

theorem countKey_cons_self (m : FontMap) (k : String) (v : Nat) :
    countKey ((k, v) :: m) k = countKey m k + 1 := by
  simp [countKey, List.filter_cons]

theorem lookup_cons_self (m : FontMap) (k : String) (v : Nat) :
    ((k, v) :: m).lookup k = some v := by
  simp [List.lookup]

theorem push_forest_textleaves_stable (H : Rat) (hash : Nat) (ts : List TextSource)
    (fonts : FontMap) (hall : ∀ t ∈ ts, t.familyHash = hash)
    (hpres : (fonts.lookup (fontIdOf hash)).isSome) :
    (push_forest H (ts.map mkTextLeaf) fonts).2 = fonts := by
  induction ts with
  | nil => simp [push_forest]
  | cons t ts ih =>
    have h1 : t.familyHash = hash := (hall t (List.mem_cons_self t ts))
    have hmap : (push_rects H (mkTextLeaf t) fonts).2 = fonts := by
      rw [push_rects_textleaf_map, get_text_node_hit t fonts (h1 ▸ hpres)]
    rw [List.map_cons, push_forest_cons, hmap]
    exact ih (fun u hu => hall u (List.mem_cons_of_mem t hu))

theorem push_forest_textleaves_insert (H : Rat) (hash : Nat) (ts : List TextSource)
    (fonts : FontMap) (hall : ∀ t ∈ ts, t.familyHash = hash ∧ t.fontParses = true)
    (habs : fonts.lookup (fontIdOf hash) = none) (hne : ts ≠ []) :
    (push_forest H (ts.map mkTextLeaf) fonts).2 = (fontIdOf hash, hash) :: fonts := by
  cases ts with
  | nil => exact absurd rfl hne
  | cons t ts =>
    obtain ⟨h1, h2⟩ := hall t (List.mem_cons_self t ts)
    have hmap : (push_rects H (mkTextLeaf t) fonts).2 = (fontIdOf hash, hash) :: fonts := by
      rw [push_rects_textleaf_map, get_text_node_insert t fonts (h1 ▸ habs) h2, h1]
    rw [List.map_cons, push_forest_cons, hmap]
    exact push_forest_textleaves_stable H hash ts _
      (fun u hu => (hall u (List.mem_cons_of_mem t hu)).1)
      (by rw [lookup_cons_self]; rfl)

theorem fixup_skip_lookup (svgP : Bytes → SvgParse) (rasterP : Bytes → RasterParse)
    (images : List (String × Bytes)) (doc : List String) (k : String) (b : Bytes)
    (hk : ∀ p ∈ images, p.1 = k → p.2 = b)
    (hs : svgP b = .fail) (hr : rasterP b = .fail) :
    (fixup_images svgP rasterP images doc).2.lookup k = none := by
  induction images generalizing doc with
  | nil => rfl
  | cons p rest ih =>
    obtain ⟨k', b'⟩ := p
    have hkrest : ∀ q ∈ rest, q.1 = k → q.2 = b :=
      fun q hq => hk q (List.mem_cons_of_mem _ hq)
    by_cases hkk : k' = k
    · subst hkk
      have hb : b' = b := hk (k', b') (List.mem_cons_self _ _) rfl
      subst hb
      simp only [fixup_images, hs, hr]
      exact ih doc hkrest
    · have hne : k ≠ k' := fun hc => hkk hc.symm
      cases hsv : svgP b' with
      | ok w h =>
        simp only [fixup_images, hsv]
        rw [show ∀ (info : ImageInfo) (m : List (String × ImageInfo)),
            ((k', info) :: m).lookup k = m.lookup k from
          fun info m => by simp [List.lookup, beq_eq_false_iff_ne.mpr hne]]
        exact ih _ hkrest
      | fail =>
        cases hra : rasterP b' with
        | ok w h =>
          simp only [fixup_images, hsv, hra]
          rw [show ∀ (info : ImageInfo) (m : List (String × ImageInfo)),
              ((k', info) :: m).lookup k = m.lookup k from
            fun info m => by simp [List.lookup, beq_eq_false_iff_ne.mpr hne]]
          exact ih _ hkrest
        | fail =>
          simp only [fixup_images, hsv, hra]
          exact ih doc hkrest

theorem no_usexobject_of_no_image (H : Rat) (n : NodeCore) (fonts : FontMap)
    (h : n.displayNone = false) (hi : get_image_node n.kind = none) :
    ∀ op ∈ ((displaylist_handle_rect H n fonts).1.getD []), isUseXObjectOp op = false := by
  intro op hop
  rw [displaylist_decomp H n fonts h] at hop
  simp only [Option.getD_some, List.mem_append] at hop
  rcases hop with (h1 | h2) | h3
  · unfold imageOpsOf at h1
    rw [hi] at h1
    simp at h1
  · exact no_usexobject_textOpsRendered H n _ op h2
  · refine no_usexobject_bracketOf H n _ ?_ op h3
    intro op hop
    rcases List.mem_append.mp hop with h | h
    · exact no_usexobject_bgOpsOf H n op h
    · exact no_usexobject_borderOpsOf H n op h

theorem bracketOf_of_ne (l : List Op) (h : l ≠ []) :
    bracketOf l = Op.SaveGraphicsState :: (l ++ [Op.RestoreGraphicsState]) := by
  unfold bracketOf
  rw [if_neg]
  simpa using h

theorem bracketOf_nil : bracketOf [] = [] := rfl

/-! ### Claim theorems -/

/-- Claim C1 (amended): a node that resolves to `display:none` emits
zero operations of its own, and at every non-root position (every node
reached through `push_rectangles_into_displaylist`) its entire subtree
is excluded from traversal with the font table untouched; the root
node handed to `layout_result_to_ops`, however, only has its own
operations suppressed — its children are still traversed. -/
theorem claim_C1_display_none_exclusion (H : Rat) (fonts : FontMap) (core : NodeCore)
    (cs : List PdfNode) (h : core.displayNone = true) :
    push_rects H (.node core cs) fonts = ([], fonts) ∧
    layout_result_to_ops H (.node core cs) fonts = push_forest H cs fonts := by
  refine ⟨push_rects_hidden H core cs fonts h, ?_⟩
  simp only [layout_result_to_ops, displaylist_handle_rect, h, if_true, Option.getD_none,
    List.nil_append]

/-- Witness for C1: a hidden node with one child is skipped entirely
by the subtree walker. -/
theorem claim_C1_witness :
    push_rects 297 (.node hiddenRoot [.node sampleBg []]) [] = ([], []) :=
  (claim_C1_display_none_exclusion 297 [] hiddenRoot [.node sampleBg []] rfl).1

/-- Counterexample to C1 as stated: when the `display:none` node is
the root of the rendering-order tree, `layout_result_to_ops` still
traverses its children (`let _ = displaylist_handle_rect(root)` at
line 345 discards the skip signal), so the descendants of a hidden
root do emit instructions. -/
theorem claim_C1_counterexample :
    (layout_result_to_ops 297 sampleTree []).1 =
      [Op.SaveGraphicsState, Op.SetFillColor 1 0 0, Op.DrawPolygon 10 287 50 20,
       Op.RestoreGraphicsState] ∧
    (layout_result_to_ops 297 sampleTree []).1 ≠ [] := by
  have hchild : push_rects 297 (.node sampleBg []) [] =
      ([Op.SaveGraphicsState, Op.SetFillColor 1 0 0, Op.DrawPolygon 10 287 50 20,
        Op.RestoreGraphicsState], []) := by
    rw [push_rects_visible 297 sampleBg [] [] rfl, push_forest_nil]
    norm_num [displaylist_handle_rect, sampleBg, get_background_content, get_image_node,
      get_text_node, isNearlyZero]
  have hroot : layout_result_to_ops 297 sampleTree [] =
      ([Op.SaveGraphicsState, Op.SetFillColor 1 0 0, Op.DrawPolygon 10 287 50 20,
        Op.RestoreGraphicsState], []) := by
    show layout_result_to_ops 297 (.node hiddenRoot [.node sampleBg []]) [] = _
    simp only [layout_result_to_ops, displaylist_handle_rect, hiddenRoot, if_true,
      Option.getD_none, List.nil_append]
    rw [push_forest_cons, hchild, push_forest_nil]
    rfl
  exact ⟨by rw [hroot], by rw [hroot]; simp⟩

/-- Claim C2 (amended): for every visible node the per-node stream is,
in order: the image-placement instruction if any, then the
text-section instructions if any, then — only when background-fill or
border instructions exist — a save-state, the background fills (set
fill color then filled rectangle, per layer), the border instructions
(thickness, color, outline), and a restore-state.  (The claim's
original order — backgrounds and borders before image and text — is
refuted by `claim_C2_counterexample`: the source buffers them in
`newops` and appends the bracket only at the end.) -/
theorem claim_C2_emission_order (H : Rat) (fonts : FontMap) (n : NodeCore)
    (h : n.displayNone = false) :
    (displaylist_handle_rect H n fonts).1 =
      some (imageOpsOf H n ++ textOpsRendered H n (get_text_node n.kind fonts).1 ++
        bracketOf (bgOpsOf H n ++ borderOpsOf H n)) := by
  rw [displaylist_decomp H n fonts h]

/-- Witness for C2 at a node with a background layer and a text
run. -/
theorem claim_C2_witness :
    (displaylist_handle_rect 297 sampleTextNode []).1 =
      some (imageOpsOf 297 sampleTextNode ++
        textOpsRendered 297 sampleTextNode (get_text_node sampleTextNode.kind []).1 ++
        bracketOf (bgOpsOf 297 sampleTextNode ++ borderOpsOf 297 sampleTextNode)) :=
  claim_C2_emission_order 297 [] sampleTextNode rfl

/-- Counterexample to C2 as stated: for a visible node with both a
solid background layer and a text run, the background-fill
instructions do not precede the text instructions — the filled
rectangle appears strictly after the text section in the emitted
stream. -/
theorem claim_C2_counterexample :
    (displaylist_handle_rect 297 sampleTextNode []).1 =
      some [Op.StartTextSection, Op.SetFillColor 0 0 1, Op.SetTextRenderingModeFill,
            Op.SetWordSpacing 100, Op.SetLineHeight 12,
            Op.SetTextCursor 0 0, Op.SetTextMatrix 2 297,
            Op.WriteCodepoints (fontIdOf 3) 24 [7], Op.EndTextSection,
            Op.SaveGraphicsState, Op.SetFillColor 1 0 0, Op.DrawPolygon 0 297 100 30,
            Op.RestoreGraphicsState] ∧
    ((displaylist_handle_rect 297 sampleTextNode []).1.getD []).findIdx isStartTextOp = 0 ∧
    ((displaylist_handle_rect 297 sampleTextNode []).1.getD []).findIdx isDrawPolygonOp = 11 := by
  have hl : (displaylist_handle_rect 297 sampleTextNode []).1 =
      some [Op.StartTextSection, Op.SetFillColor 0 0 1, Op.SetTextRenderingModeFill,
            Op.SetWordSpacing 100, Op.SetLineHeight 12,
            Op.SetTextCursor 0 0, Op.SetTextMatrix 2 297,
            Op.WriteCodepoints (fontIdOf 3) 24 [7], Op.EndTextSection,
            Op.SaveGraphicsState, Op.SetFillColor 1 0 0, Op.DrawPolygon 0 297 100 30,
            Op.RestoreGraphicsState] := by
    norm_num [displaylist_handle_rect, sampleTextNode, sampleText, sampleGlyph,
      get_background_content, get_image_node, get_text_node, isNearlyZero, List.lookup]
  refine ⟨hl, ?_, ?_⟩ <;>
    simp [hl, List.findIdx, List.findIdx.go, isStartTextOp, isDrawPolygonOp]

/-- Claim C3: every placing instruction a visible node emits uses the
node's layout x unchanged and the page-height-flipped layout y:
background rectangles and border outlines are drawn at `(x, H - y)`,
image placements translate to `(x, H - y)`, and text transforms
translate vertically to `(H - y)` minus the glyph advance y. -/
theorem claim_C3_coordinate_flip (H : Rat) (fonts : FontMap) (n : NodeCore)
    (h : n.displayNone = false) :
    ∀ op ∈ ((displaylist_handle_rect H n fonts).1.getD []), placementOk H n op := by
  intro op hop
  rw [displaylist_decomp H n fonts h] at hop
  simp only [Option.getD_some, List.mem_append] at hop
  rcases hop with (h1 | h2) | h3
  · exact placement_imageOpsOf H n op h1
  · cases hr : (get_text_node n.kind fonts).1 with
    | none => rw [hr] at h2; simp [textOpsRendered] at h2
    | some res =>
      rw [hr] at h2
      obtain ⟨hk2, -⟩ := get_text_node_some_shape _ _ _ hr
      exact placement_textOpsOf H n res.text res hk2 rfl op h2
  · refine placement_bracketOf H n _ ?_ op h3
    intro op hop
    rcases List.mem_append.mp hop with hx | hx
    · exact placement_bgOpsOf H n op hx
    · exact placement_borderOpsOf H n op hx

/-- Witness for C3: the background rectangle of the sample node at
layout origin `(10, 10)` on a 297-tall page is drawn at
`(10, 287)`. -/
theorem claim_C3_witness :
    placementOk 297 sampleBg (Op.DrawPolygon 10 287 50 20) :=
  claim_C3_coordinate_flip 297 [] sampleBg rfl (Op.DrawPolygon 10 287 50 20)
    (by norm_num [displaylist_handle_rect, sampleBg, get_background_content,
      get_image_node, get_text_node, isNearlyZero])

/-- Claim C4: for a visible node, the background and border
instructions (when any exist) appear as one contiguous block bracketed
immediately by save-state and restore-state inside the node's own
stream; a node with no such layer emits no bracket at all; image and
text instructions stay outside the bracket; and within the tree
stream a node's whole block precedes its children's operations, so no
unrelated node's instructions interleave. -/
theorem claim_C4_state_bracketing (H : Rat) (fonts : FontMap) (n : NodeCore)
    (cs : List PdfNode) (h : n.displayNone = false) :
    (bgOpsOf H n ++ borderOpsOf H n ≠ [] →
      (displaylist_handle_rect H n fonts).1 =
        some ((imageOpsOf H n ++ textOpsRendered H n (get_text_node n.kind fonts).1) ++
          Op.SaveGraphicsState ::
            ((bgOpsOf H n ++ borderOpsOf H n) ++ [Op.RestoreGraphicsState]))) ∧
    (bgOpsOf H n ++ borderOpsOf H n = [] →
      (displaylist_handle_rect H n fonts).1 =
        some (imageOpsOf H n ++ textOpsRendered H n (get_text_node n.kind fonts).1) ∧
      Op.SaveGraphicsState ∉ ((displaylist_handle_rect H n fonts).1.getD []) ∧
      Op.RestoreGraphicsState ∉ ((displaylist_handle_rect H n fonts).1.getD [])) ∧
    Op.SaveGraphicsState ∉
      (imageOpsOf H n ++ textOpsRendered H n (get_text_node n.kind fonts).1) ∧
    Op.RestoreGraphicsState ∉
      (imageOpsOf H n ++ textOpsRendered H n (get_text_node n.kind fonts).1) ∧
    (push_rects H (.node n cs) fonts).1 =
      ((displaylist_handle_rect H n fonts).1.getD []) ++
        (push_forest H cs (displaylist_handle_rect H n fonts).2).1 := by
  have hd := displaylist_decomp H n fonts h
  have hsave : Op.SaveGraphicsState ∉
      (imageOpsOf H n ++ textOpsRendered H n (get_text_node n.kind fonts).1) := by
    intro hc
    rcases List.mem_append.mp hc with hx | hx
    · exact (no_save_imageOps H n).1 hx
    · exact (no_save_textOpsRendered H n _).1 hx
  have hrest : Op.RestoreGraphicsState ∉
      (imageOpsOf H n ++ textOpsRendered H n (get_text_node n.kind fonts).1) := by
    intro hc
    rcases List.mem_append.mp hc with hx | hx
    · exact (no_save_imageOps H n).2 hx
    · exact (no_save_textOpsRendered H n _).2 hx
  refine ⟨?_, ?_, hsave, hrest, ?_⟩
  · intro hne
    rw [hd]
    simp only [bracketOf_of_ne _ hne, List.append_assoc]
  · intro hnil
    have hpre : (displaylist_handle_rect H n fonts).1 =
        some (imageOpsOf H n ++ textOpsRendered H n (get_text_node n.kind fonts).1) := by
      rw [hd, hnil, bracketOf_nil, List.append_nil]
    refine ⟨hpre, ?_, ?_⟩
    · rw [hpre]; exact hsave
    · rw [hpre]; exact hrest
  · rw [push_rects_visible H n cs fonts h]

/-- Witness for C4: the sample background node emits exactly one
bracketed background block. -/
theorem claim_C4_witness :
    (displaylist_handle_rect 297 sampleBg []).1 =
      some ((imageOpsOf 297 sampleBg ++
          textOpsRendered 297 sampleBg (get_text_node sampleBg.kind []).1) ++
        Op.SaveGraphicsState ::
          ((bgOpsOf 297 sampleBg ++ borderOpsOf 297 sampleBg) ++
            [Op.RestoreGraphicsState])) :=
  (claim_C4_state_bracketing 297 [] sampleBg [] rfl).1
    (by simp [bgOpsOf, borderOpsOf, sampleBg, get_background_content])

/-- Claim C5 evaluated at the failing input: the source assigns
`source_height = image_info.width` (line 531), so for an image of
intrinsic size `2 × 3` stretched into a `10 × 10` box both scale
factors evaluate to `10 / 2 = 5` although the claim requires
`scale_y = 10 / 3`; and an image with intrinsic height 0 (width 2) is
still emitted although the claim requires suppression. -/
theorem claim_C5_code_divergence :
    (displaylist_handle_rect 297 sampleImageNode []).1 =
      some [Op.UseXObject "xobj0" 0 297 5 5] ∧
    ((10 : Rat) / 3 ≠ 5) ∧
    (displaylist_handle_rect 297 sampleImageZeroH []).1 =
      some [Op.UseXObject "xobj0" 0 297 5 5] := by
  refine ⟨?_, by norm_num, ?_⟩ <;>
    norm_num [displaylist_handle_rect, sampleImageNode, sampleImageInfo,
      sampleImageZeroH, sampleImageInfoZeroH, get_background_content, get_image_node,
      get_text_node, isNearlyZero, abs]

/-- Claim C6 (amended): for a visible text node, every emitted text
transform translates to `(box-x + 2 * glyph-advance-x,
H - box-y - glyph-advance-y)`, every glyph-draw instruction carries
twice the resolved font size together with the deterministic font
resource name, and the line-height instruction carries the unscaled
font size.  (The claim's original statement — advance x unscaled and
no rescale beyond the fixed factor 1.0 — is refuted by
`claim_C6_counterexample`: the source multiplies the glyph advance x
and the glyph-draw font size by 2.0.) -/
theorem claim_C6_text_transform (H : Rat) (fonts : FontMap) (n : NodeCore) (t : TextSource)
    (h : n.displayNone = false) (hk : n.kind = NodeKind.text (some t)) :
    ∀ op ∈ ((displaylist_handle_rect H n fonts).1.getD []),
      placementOk H n op ∧ textScaleOk n op := by
  intro op hop
  rw [displaylist_decomp H n fonts h] at hop
  simp only [Option.getD_some, List.mem_append] at hop
  rcases hop with (h1 | h2) | h3
  · exact ⟨placement_imageOpsOf H n op h1, scale_imageOpsOf H n op h1⟩
  · cases hr : (get_text_node n.kind fonts).1 with
    | none => rw [hr] at h2; simp [textOpsRendered] at h2
    | some res =>
      rw [hr] at h2
      obtain ⟨hk2, hid⟩ := get_text_node_some_shape _ _ _ hr
      exact ⟨placement_textOpsOf H n res.text res hk2 rfl op h2,
             scale_textOpsOf H n res.text res hk2 rfl hid op h2⟩
  · constructor
    · refine placement_bracketOf H n _ ?_ op h3
      intro op hop
      rcases List.mem_append.mp hop with hx | hx
      · exact placement_bgOpsOf H n op hx
      · exact placement_borderOpsOf H n op hx
    · refine scale_bracketOf n _ ?_ op h3
      intro op hop
      rcases List.mem_append.mp hop with hx | hx
      · exact scale_bgOpsOf H n op hx
      · exact scale_borderOpsOf H n op hx

/-- Witness for C6: the sample glyph with advance `(1, 0)` at box
origin `(0, 0)` yields the text transform `(2, 297)`. -/
theorem claim_C6_witness :
    placementOk 297 sampleTextNode (Op.SetTextMatrix 2 297) ∧
    textScaleOk sampleTextNode (Op.SetTextMatrix 2 297) :=
  claim_C6_text_transform 297 [] sampleTextNode sampleText rfl rfl (Op.SetTextMatrix 2 297)
    (by norm_num [displaylist_handle_rect, sampleTextNode, sampleText, sampleGlyph,
      get_background_content, get_image_node, get_text_node, isNearlyZero, List.lookup])

/-- Counterexample to C6 as stated: for the sample text node (box
origin `(0,0)`, page height 297, glyph advance `(1,0)`, font size 12)
the emitted transform is `(2, 297)` — the advance x is doubled — and
the glyph-draw instruction carries size 24, twice the resolved size;
the instructions the claim predicts (`(1, 297)` and size 12) are
absent. -/
theorem claim_C6_counterexample :
    Op.SetTextMatrix 2 297 ∈ ((displaylist_handle_rect 297 sampleTextNode []).1.getD []) ∧
    Op.SetTextMatrix 1 297 ∉ ((displaylist_handle_rect 297 sampleTextNode []).1.getD []) ∧
    Op.WriteCodepoints (fontIdOf 3) 24 [7] ∈
      ((displaylist_handle_rect 297 sampleTextNode []).1.getD []) ∧
    Op.WriteCodepoints (fontIdOf 3) 12 [7] ∉
      ((displaylist_handle_rect 297 sampleTextNode []).1.getD []) := by
  have hl : (displaylist_handle_rect 297 sampleTextNode []).1 =
      some [Op.StartTextSection, Op.SetFillColor 0 0 1, Op.SetTextRenderingModeFill,
            Op.SetWordSpacing 100, Op.SetLineHeight 12,
            Op.SetTextCursor 0 0, Op.SetTextMatrix 2 297,
            Op.WriteCodepoints (fontIdOf 3) 24 [7], Op.EndTextSection,
            Op.SaveGraphicsState, Op.SetFillColor 1 0 0, Op.DrawPolygon 0 297 100 30,
            Op.RestoreGraphicsState] := by
    norm_num [displaylist_handle_rect, sampleTextNode, sampleText, sampleGlyph,
      get_background_content, get_image_node, get_text_node, isNearlyZero, List.lookup]
  rw [hl]
  refine ⟨?_, ?_, ?_, ?_⟩ <;> norm_num <;> decide

/-- Claim C7: the font resource name is a deterministic fixed-width
string (the 32-digit zero-padded decimal hash appended to a 17
character stem, 49 characters in all); the font-table update is
insert-if-absent — a present key short-circuits and the table is
never overwritten; a font whose bytes fail to parse yields no text
output for that node and leaves the table unchanged, without aborting
the walk; and emitting any nonempty sequence of text nodes sharing one
family key leaves exactly one table entry for that key. -/
theorem claim_C7_font_dedup :
    (∀ h : Nat, (toString h).length ≤ 32 → (fontIdOf h).length = 49) ∧
    (∀ (fonts : FontMap) (t : TextSource),
        (fonts.lookup (fontIdOf t.familyHash)).isSome →
        get_text_node (NodeKind.text (some t)) fonts =
          (some ⟨t, fontIdOf t.familyHash⟩, fonts)) ∧
    (∀ (fonts : FontMap) (t : TextSource),
        fonts.lookup (fontIdOf t.familyHash) = none → t.fontParses = true →
        get_text_node (NodeKind.text (some t)) fonts =
          (some ⟨t, fontIdOf t.familyHash⟩,
           (fontIdOf t.familyHash, t.familyHash) :: fonts)) ∧
    (∀ (fonts : FontMap) (t : TextSource),
        fonts.lookup (fontIdOf t.familyHash) = none → t.fontParses = false →
        get_text_node (NodeKind.text (some t)) fonts = (none, fonts)) ∧
    (∀ (H : Rat) (hash : Nat) (ts : List TextSource) (fonts : FontMap),
        (∀ t ∈ ts, t.familyHash = hash ∧ t.fontParses = true) → ts ≠ [] →
        fonts.lookup (fontIdOf hash) = none →
        countKey (push_forest H (ts.map mkTextLeaf) fonts).2 (fontIdOf hash) = 1) := by
  refine ⟨?_, fun fonts t h => get_text_node_hit t fonts h,
    fun fonts t h hp => get_text_node_insert t fonts h hp,
    fun fonts t h hp => get_text_node_noparse t fonts h hp, ?_⟩
  · intro hh hle
    unfold fontIdOf
    rw [String.length_append]
    have hp : (padZeroTo 32 (toString hh)).length = 32 := by
      show (List.replicate (32 - (toString hh).length) '0' ++ (toString hh).data).length = 32
      rw [List.length_append, List.length_replicate,
        show (toString hh).data.length = (toString hh).length from rfl]
      omega
    rw [hp]
    decide
  · intro H hash ts fonts hall hne habs
    rw [push_forest_textleaves_insert H hash ts fonts hall habs hne,
      countKey_cons_self, countKey_eq_zero fonts _ habs]

/-- Witness for C7: one sample text node with family hash 3 leaves
exactly one font-table entry under its derived resource name. -/
theorem claim_C7_witness :
    countKey (push_forest 297 ([sampleText].map mkTextLeaf) []).2 (fontIdOf 3) = 1 :=
  claim_C7_font_dedup.2.2.2.2 297 3 [sampleText] []
    (by simp [sampleText]) (by simp) rfl

/-- Claim C8: an image source whose bytes fail both the vector codec
and the raster codec is skipped during pre-pass ingestion (nothing is
registered and its `src` reference is never rewritten), the node that
still references it emits no image-placement instruction, and the
render as a whole succeeds whenever the external parse stage does. -/
theorem claim_C8_undecodable_image (svgP : Bytes → SvgParse) (rasterP : Bytes → RasterParse)
    (parseDom : String → List (String × ImageInfo) → List (String × Bytes) → Option PdfNode)
    (fc : String) (config : XmlRenderOptions) (k : String) (b : Bytes)
    (hmem : (k, b) ∈ config.images)
    (hku : ∀ p ∈ config.images, p.1 = k → p.2 = b)
    (hs : svgP b = .fail) (hr : rasterP b = .fail) :
    (fixup_images svgP rasterP config.images []).2.lookup k = none ∧
    tagForSrc (fixup_images svgP rasterP config.images []).2 k = ImageTag.raw k ∧
    (∀ (H : Rat) (fonts : FontMap) (n : NodeCore),
        n.kind = NodeKind.image (tagForSrc (fixup_images svgP rasterP config.images []).2 k) →
        n.displayNone = false →
        ∀ op ∈ ((displaylist_handle_rect H n fonts).1.getD []),
          isUseXObjectOp op = false) ∧
    (∀ root,
        parseDom fc (fixup_images svgP rasterP config.images []).2 config.fonts = some root →
        xml_to_pages svgP rasterP parseDom fc config =
          Except.ok [⟨config.page_width, config.page_height,
            (layout_result_to_ops (mmToPt config.page_height) root []).1⟩]) := by
  have h1 := fixup_skip_lookup svgP rasterP config.images [] k b hku hs hr
  have h2 : tagForSrc (fixup_images svgP rasterP config.images []).2 k = ImageTag.raw k := by
    unfold tagForSrc
    rw [h1]
  refine ⟨h1, h2, ?_, ?_⟩
  · intro H fonts n hk hvis
    have hi : get_image_node n.kind = none := by rw [hk, h2]; rfl
    exact no_usexobject_of_no_image H n fonts hvis hi
  · intro root hp
    unfold xml_to_pages
    rw [hp]

/-- Witness for C8: the sample configuration's undecodable source
registers nothing. -/
theorem claim_C8_witness :
    (fixup_images failSvg failRaster sampleConfig.images []).2.lookup "bad" = none :=
  (claim_C8_undecodable_image failSvg failRaster (fun _ _ _ => none) "" sampleConfig
    "bad" badBytes (by simp [sampleConfig]) (by simp [sampleConfig]) rfl rfl).1

/-- Claim C9: the whole pipeline is a pure function of the markup, the
asset maps and the configuration — rendering the same inputs twice
yields the identical result (the asset maps are `BTreeMap`s iterated
in key order, the external codecs and layout engine enter as fixed
functions, and resource ids are allocated deterministically). -/
theorem claim_C9_deterministic (svgP : Bytes → SvgParse) (rasterP : Bytes → RasterParse)
    (parseDom : String → List (String × ImageInfo) → List (String × Bytes) → Option PdfNode)
    (fc1 fc2 : String) (c1 c2 : XmlRenderOptions) (hf : fc1 = fc2) (hc : c1 = c2) :
    xml_to_pages svgP rasterP parseDom fc1 c1 = xml_to_pages svgP rasterP parseDom fc2 c2 := by
  rw [hf, hc]

/-- Witness for C9 at the sample configuration. -/
theorem claim_C9_witness :
    xml_to_pages failSvg failRaster (fun _ _ _ => none) "a" sampleConfig =
      xml_to_pages failSvg failRaster (fun _ _ _ => none) "a" sampleConfig :=
  claim_C9_deterministic failSvg failRaster (fun _ _ _ => none) "a" "a"
    sampleConfig sampleConfig rfl rfl

/-- Claim C10: whenever `xml_to_pages` succeeds it returns exactly one
page, and that page carries the entire operation stream of the walk —
overflowing content is never split onto further pages. -/
theorem claim_C10_single_page (svgP : Bytes → SvgParse) (rasterP : Bytes → RasterParse)
    (parseDom : String → List (String × ImageInfo) → List (String × Bytes) → Option PdfNode)
    (fc : String) (config : XmlRenderOptions) (pages : List PdfPage)
    (h : xml_to_pages svgP rasterP parseDom fc config = Except.ok pages) :
    pages.length = 1 ∧
    ∃ root,
      parseDom fc (fixup_images svgP rasterP config.images []).2 config.fonts = some root ∧
      pages = [⟨config.page_width, config.page_height,
        (layout_result_to_ops (mmToPt config.page_height) root []).1⟩] := by
  unfold xml_to_pages at h
  cases hp : parseDom fc (fixup_images svgP rasterP config.images []).2 config.fonts with
  | none => rw [hp] at h; cases h
  | some root =>
    rw [hp] at h
    have h2 : (Except.ok [(⟨config.page_width, config.page_height,
        (layout_result_to_ops (mmToPt config.page_height) root []).1⟩ : PdfPage)] :
        Except String (List PdfPage)) = Except.ok pages := h
    cases h2
    exact ⟨rfl, root, rfl, rfl⟩

/-- Witness for C10: a successful render of the sample configuration
returns a single page. -/
theorem claim_C10_witness :
    ([(⟨210, 297, (layout_result_to_ops (mmToPt 297) trivialRoot []).1⟩ : PdfPage)] :
      List PdfPage).length = 1 :=
  (claim_C10_single_page failSvg failRaster (fun _ _ _ => some trivialRoot) ""
    sampleConfig _ rfl).1

end HtmlPdf
